import Mathlib

/-!
Verification of the table-access pipeline of `polars_access_mdbtools`.

The repository orchestrates external `mdbtools` binaries to read legacy
Access database files.  The packaging script `build_mdbtools.py` is under
`src/` and is embedded below directly from its source.  The core pipeline
(`list_table_names`, `read_table`, the process invoker, the executable
resolver and the output decoder) is exercised by the tests under
`src/tests/` but its implementation file is not part of the sources;
those components are modelled from the specification, as marked in the
doc comment of each such definition.

Machine-level conventions: captured process output is represented as text
(for the invoker) and as its list of lines (for the decoder, which is
line-oriented); filesystem and process state are passed explicitly.
-/

/-- Error taxonomy of the pipeline (spec section 7): typed, fatal errors,
always propagated to the caller. -/
inductive MdbError where
  | executableNotFound (msg : String)
  | executionError (msg : String)
  | externalToolFailure (exitCode : Int) (stderrText : String)
  | decodeError (msg : String)
  | tableNotFound (msg : String)
  deriving DecidableEq, Repr

/-! ## Process invoker -/

/-- Outcome of running a child process: its exit code and the captured
output streams, decoded to text. -/
structure ProcOutcome where
  exitCode : Int
  stdoutText : String
  stderrText : String
  deriving DecidableEq, Repr

/-- Modelled from the spec: the Process Invoker (section 4.2) of the core
pipeline, whose implementation file is not among the sources.  On exit
code 0 it returns the captured standard-output text; on a non-zero exit
code it fails with an `ExternalToolFailure` carrying the exit code and the
captured standard-error text. -/
def invoke (p : ProcOutcome) : Except MdbError String :=
  if p.exitCode = 0 then .ok p.stdoutText
  else .error (.externalToolFailure p.exitCode p.stderrText)

/-- Embedded from `src/build_mdbtools.py`, `run` (lines 30-37): the build
script runs a command with `check=True`, so it returns normally exactly
when the child exits with code 0 and raises `CalledProcessError` carrying
the return code otherwise.  Output is not captured by this helper. -/
def buildRun (exitCode : Int) : Except MdbError Unit :=
  if exitCode = 0 then .ok ()
  else .error (.externalToolFailure exitCode "")

/-! ## Executable resolver and platform-keyed binary layout -/

/-- Embedded from `src/build_mdbtools.py` line 27: the four helper tools
bundled with the package. -/
def TARGET_BINARIES : List String :=
  ["mdb-ver", "mdb-export", "mdb-schema", "mdb-tables"]

/-- Embedded from `src/build_mdbtools.py` line 42: the platforms for which
binaries are built, as normalized platform names. -/
def supportedSystems : List String := ["linux", "darwin"]

/-- Embedded from `src/build_mdbtools.py` lines 114-118: a built binary
`exe` for platform `system` is placed at `BIN_DIR / system / exe`, written
here relative to the package `bin` directory. -/
def destPath (system exe : String) : String :=
  "bin/" ++ system ++ "/" ++ exe

/-- Modelled from the spec: the Executable Resolver (sections 4.1 and 6)
of the core pipeline, whose implementation file is not among the sources.
Given the running platform's normalized name and a tool name, it returns
the path of the bundled helper executable under the platform-keyed
directory `bin/<platform>/<tool-name>`, and fails with
`ExecutableNotFound` on an unsupported platform or an unknown tool. -/
def resolveTool (system tool : String) : Except MdbError String :=
  if system ∈ supportedSystems then
    if tool ∈ TARGET_BINARIES then .ok (destPath system tool)
    else .error (.executableNotFound ("unknown tool: " ++ tool))
  else .error (.executableNotFound ("unsupported platform: " ++ system))

/-! ## Environment handling of the packaging step -/

/-- A process environment: a partial map from variable names to values. -/
def Env : Type := String → Option String

/-- Python `dict.setdefault`: set `k` to `v` only when `k` is absent. -/
def Env.setdefault (e : Env) (k v : String) : Env :=
  fun q => if q = k then some ((e k).getD v) else e q

/-- Embedded from `src/build_mdbtools.py` lines 62-63: the build function
takes a copy of the global environment (`os.environ.copy()`) and applies
`CFLAGS=-O2` as a default on that copy only
(`env.setdefault("CFLAGS", "-O2")`).  The function never writes back to
the global environment, so the step returns the global environment
unchanged together with the private build environment. -/
def buildEnvStep (globalEnv : Env) : Env × Env :=
  let env := Env.setdefault globalEnv "CFLAGS" "-O2"
  (globalEnv, env)

/-! ## Import-time bin-directory check of the build module -/

/-- Embedded from `src/build_mdbtools.py` line 17: the package binary
directory, written relative to the repository root `ROOT`. -/
def binDirPath : String := "src/polars_access_mdbtools/bin"

/-- The filesystem as observed at one instant: whether each path is an
existing directory. -/
structure FileSys where
  isDir : String → Bool

/-- Embedded from `src/build_mdbtools.py` lines 16-20: at import time the
module checks `BIN_DIR.is_dir()` and raises
`RuntimeError(f"Expected bin dir at BIN_DIR")` when the check fails;
otherwise the import succeeds. -/
def importBuildModule (fs : FileSys) : Except String Unit :=
  if fs.isDir binDirPath then .ok ()
  else .error ("Expected bin dir at " ++ binDirPath)

/-! ## Schema and output decoder -/

/-- The finite type enumeration of the data model (spec section 3):
column-type tags mapped from the external schema vocabulary. -/
inductive AccessType where
  | integer
  | float
  | text
  | boolean
  | datetime
  | binary
  | currency
  | memo
  deriving DecidableEq, Repr

/-- A decoded column: name plus declared type tag (spec section 3). -/
structure ColumnSchema where
  name : String
  ty : AccessType
  deriving DecidableEq, Repr

/-- A decoded, type-coerced field value.  Non-text empty fields decode to
`null`; types whose native coercion is outside the scope of the claims
(floating point, date/time, binary, currency) keep their raw text. -/
inductive Value where
  | null
  | vInt (i : Int)
  | vBool (b : Bool)
  | vText (s : String)
  | vRaw (s : String)
  deriving DecidableEq, Repr

/-- The final decoded result (spec section 3): ordered column names,
their types, and the coerced rows. -/
structure TypedTable where
  columns : List String
  colTypes : List AccessType
  rows : List (List Value)
  deriving DecidableEq, Repr

/-- Row count of a table. -/
def TypedTable.height (t : TypedTable) : Nat := t.rows.length

/-- Column count of a table. -/
def TypedTable.width (t : TypedTable) : Nat := t.columns.length

/-- Modelled from the spec: table-list decode (section 4.3) over the
listing tool output, given as its lines: each non-empty line, in original
emitted order, is one table name; no deduplication, sorting or
filtering. -/
def tableListDecode (lines : List String) : List String :=
  lines.filter (fun l => l ≠ "")

/-- Modelled from the spec: the closed, explicit mapping table from the
external schema vocabulary to the finite type enumeration (sections 4.3
and 9).  An unrecognized token maps to `none`, which the schema decode
turns into a loud decode error. -/
def typeMap : String → Option AccessType
  | "Byte" => some .integer
  | "Integer" => some .integer
  | "Long Integer" => some .integer
  | "Single" => some .float
  | "Double" => some .float
  | "Text" => some .text
  | "Boolean" => some .boolean
  | "DateTime" => some .datetime
  | "Binary" => some .binary
  | "OLE" => some .binary
  | "Currency" => some .currency
  | "Memo/Hyperlink" => some .memo
  | _ => none

/-- Split a character list at every occurrence of `sep`; `cur` holds the
current chunk reversed. -/
def splitOnCharAux (sep : Char) : List Char → List Char → List String
  | [], cur => [String.mk cur.reverse]
  | c :: rest, cur =>
    if c = sep then String.mk cur.reverse :: splitOnCharAux sep rest []
    else splitOnCharAux sep rest (c :: cur)

/-- Split a string at every occurrence of `sep`. -/
def splitOnChar (sep : Char) (s : String) : List String :=
  splitOnCharAux sep s.data []

/-- Modelled from the spec: one line of the schema dump, a column
name/type pair in positional order (section 4.3), written `name:type`. -/
def parseSchemaLine (l : String) : Except MdbError ColumnSchema :=
  match splitOnChar ':' l with
  | [n, t] =>
    match typeMap t with
    | some ty => .ok ⟨n, ty⟩
    | none => .error (.decodeError ("unrecognized type token: " ++ t))
  | _ => .error (.decodeError ("malformed schema line: " ++ l))

/-- Modelled from the spec: schema decode (section 4.3) over the schema
dump output, given as its lines: parse each non-empty line into a
`ColumnSchema`, preserving positional order. -/
def schemaDecode : List String → Except MdbError (List ColumnSchema)
  | [] => .ok []
  | l :: ls =>
    if l = "" then schemaDecode ls
    else
      match parseSchemaLine l with
      | .error e => .error e
      | .ok c =>
        match schemaDecode ls with
        | .error e => .error e
        | .ok cs => .ok (c :: cs)

/-- Field splitter for one delimited record (spec section 4.3):
comma-separated, with quoted-string escaping for fields containing the
delimiter.  `cur` is the current field (reversed), `inQ` whether we are
inside a quoted section, `acc` the completed fields (reversed). -/
def splitFieldsAux : List Char → Bool → List Char → List String →
    Except MdbError (List String)
  | [], false, cur, acc => .ok ((String.mk cur.reverse :: acc).reverse)
  | [], true, _, _ => .error (.decodeError "unterminated quoted field")
  | c :: rest, false, cur, acc =>
    if c = ',' then splitFieldsAux rest false [] (String.mk cur.reverse :: acc)
    else if c = '"' then splitFieldsAux rest true cur acc
    else splitFieldsAux rest false (c :: cur) acc
  | c :: rest, true, cur, acc =>
    if c = '"' then splitFieldsAux rest false cur acc
    else splitFieldsAux rest true (c :: cur) acc

/-- Modelled from the spec: parse one delimited export record into its
raw string fields (section 4.3). -/
def parseRecord (l : String) : Except MdbError (List String) :=
  splitFieldsAux l.data false [] []

/-- Modelled from the spec: decode the data records of the row export,
checking that every record has exactly `w` fields; a differing arity is a
decode error, not a silently tolerated condition (sections 3 and 4.3). -/
def decodeRowLines (w : Nat) : List String → Except MdbError (List (List String))
  | [] => .ok []
  | l :: ls =>
    match parseRecord l with
    | .error e => .error e
    | .ok fs =>
      if fs.length = w then
        match decodeRowLines w ls with
        | .error e => .error e
        | .ok rest => .ok (fs :: rest)
      else .error (.decodeError ("row arity mismatch: " ++ l))

/-- Modelled from the spec: row-export decode (section 4.3) over the
export tool output, given as its lines: the header line is kept
separately as the column-name sequence, the remaining records become the
raw rows, each checked to have exactly the header's arity. -/
def exportDecode : List String → Except MdbError (List String × List (List String))
  | [] => .error (.decodeError "missing export header line")
  | h :: ls =>
    match parseRecord h with
    | .error e => .error e
    | .ok hs =>
      match decodeRowLines hs.length ls with
      | .error e => .error e
      | .ok rows => .ok (hs, rows)

/-- Parse a digit sequence into a natural number, accumulator style. -/
def parseNatAux : List Char → Nat → Option Nat
  | [], n => some n
  | c :: rest, n =>
    if c.isDigit then parseNatAux rest (n * 10 + (c.toNat - 48))
    else none

/-- Parse an optionally negated digit string into an integer. -/
def parseIntString (s : String) : Option Int :=
  match s.data with
  | [] => none
  | '-' :: rest =>
    if rest = [] then none
    else (parseNatAux rest 0).map (fun n => -(n : Int))
  | ds => (parseNatAux ds 0).map (fun n => (n : Int))

/-- Modelled from the spec: coercion of one raw field into the native
type of its column (section 4.3).  An empty non-text field is a null; for
text-typed columns the empty string is a legitimate value.  Types outside
the scope of the claims keep their raw text. -/
def coerceField (ty : AccessType) (s : String) : Except MdbError Value :=
  match ty with
  | .text => .ok (.vText s)
  | .memo => .ok (.vText s)
  | _ =>
    if s = "" then .ok .null
    else
      match ty with
      | .integer =>
        match parseIntString s with
        | some i => .ok (.vInt i)
        | none => .error (.decodeError ("not an integer: " ++ s))
      | .boolean =>
        if s = "1" then .ok (.vBool true)
        else if s = "0" then .ok (.vBool false)
        else .error (.decodeError ("not a boolean: " ++ s))
      | _ => .ok (.vRaw s)

/-- Coerce one raw row against the column schemas, positionally. -/
def coerceRow : List ColumnSchema → List String → Except MdbError (List Value)
  | [], [] => .ok []
  | c :: cs, f :: fs =>
    match coerceField c.ty f with
    | .error e => .error e
    | .ok v =>
      match coerceRow cs fs with
      | .error e => .error e
      | .ok vs => .ok (v :: vs)
  | _, _ => .error (.decodeError "row arity mismatch during coercion")

/-- Coerce every raw row against the column schemas. -/
def coerceRows (cs : List ColumnSchema) : List (List String) →
    Except MdbError (List (List Value))
  | [] => .ok []
  | r :: rs =>
    match coerceRow cs r with
    | .error e => .error e
    | .ok v =>
      match coerceRows cs rs with
      | .error e => .error e
      | .ok vs => .ok (v :: vs)

/-! ## Table access facade -/

/-- A database file together with the external toolkit, abstracted as the
text (given as lines) each tool invocation emits on standard output:
the table-listing tool, and the schema-dump and row-export tools for a
named table.  The toolkit is deterministic (spec section 7), so one
output per invocation shape. -/
structure Db where
  tablesOut : List String
  schemaOut : String → List String
  exportOut : String → List String

/-- One external tool invocation performed by the facade. -/
inductive ToolCall where
  | tableList
  | schemaDump (table : String)
  | rowExport (table : String)
  deriving DecidableEq, Repr

/-- Modelled from the spec: `list_table_names` (section 4.4) invokes the
table-list tool and decodes its output. -/
def list_table_names (db : Db) : List String :=
  tableListDecode db.tablesOut

/-- Modelled from the spec: `read_table` (section 4.4), instrumented with
the list of external tool invocations it performs.  It first obtains the
table-name list; if the requested table is absent it fails immediately
with `TableNotFound` carrying the exact name, before any export
invocation.  Otherwise it invokes the schema-dump and row-export tools,
decodes both, cross-validates that the column names agree, coerces the
raw rows, and assembles the `TypedTable`. -/
def read_table_run (db : Db) (t : String) :
    Except MdbError TypedTable × List ToolCall :=
  let names := list_table_names db
  if t ∈ names then
    match schemaDecode (db.schemaOut t) with
    | .error e => (.error e, [.tableList, .schemaDump t])
    | .ok schema =>
      match exportDecode (db.exportOut t) with
      | .error e => (.error e, [.tableList, .schemaDump t, .rowExport t])
      | .ok (header, rawRows) =>
        if header = schema.map ColumnSchema.name then
          match coerceRows schema rawRows with
          | .error e => (.error e, [.tableList, .schemaDump t, .rowExport t])
          | .ok rows =>
            (.ok ⟨header, schema.map ColumnSchema.ty, rows⟩,
             [.tableList, .schemaDump t, .rowExport t])
        else
          (.error (.decodeError ("column mismatch between schema and export for " ++ t)),
           [.tableList, .schemaDump t, .rowExport t])
  else
    (.error (.tableNotFound ("Table \"" ++ t ++ "\" not found in database")),
     [.tableList])

/-- Modelled from the spec: `read_table` (section 4.4), result only. -/
def read_table (db : Db) (t : String) : Except MdbError TypedTable :=
  (read_table_run db t).1

/-- Ambient process state that the core pipeline must not depend on
(spec sections 7 and 9): the process environment and how many
invocations happened before the call. -/
structure Ambient where
  env : Env
  callIndex : Nat

/-- Modelled from the spec: a call of `list_table_names` in an ambient
process state.  The pipeline depends only on explicit configuration (the
database and its tool outputs), never on the ambient state, and performs
no retries, so the ambient argument is not consulted. -/
def list_table_names_in (_amb : Ambient) (db : Db) : List String :=
  list_table_names db

/-! ## The reference fixture database -/

/-- Modelled from the spec: the table names of the reference fixture
database, in the order the listing tool emits them (spec section 8
concrete scenario; the fixture binary itself is not among the sources). -/
def fixtureTables : List String :=
  ["CMD_LINE_TB", "CUM_VAL_TB", "DATABASE_STRUCTURE_TB", "DECUM_VAL_TB",
   "ROULETTE_TB", "TAG_GRP_TB", "TAG_NME_TB", "tblContacts", "tblDefaults",
   "tblFileList", "USysRibbons"]

/-- Modelled from the spec: schema-dump output (as lines) of the fixture
database for the tables the concrete scenarios exercise. -/
def fixtureSchemaOut : String → List String
  | "TAG_NME_TB" => ["TAG_ID:Long Integer", "TAG_NME:Text"]
  | "tblContacts" => ["ContactID:Long Integer", "ContactName:Text"]
  | "tblDefaults" => ["DefaultID:Long Integer", "DefaultValue:Text"]
  | _ => []

/-- Modelled from the spec: row-export output (as lines) of the fixture
database for the tables the concrete scenarios exercise.  `TAG_NME_TB`
exports a header and 933 data records, `tblContacts` a header and no
records, `tblDefaults` a header and one record (spec section 8). -/
def fixtureExportOut : String → List String
  | "TAG_NME_TB" => "TAG_ID,TAG_NME" :: List.replicate 933 "7,\"tag\""
  | "tblContacts" => ["ContactID,ContactName"]
  | "tblDefaults" => ["DefaultID,DefaultValue", "1,\"default\""]
  | _ => []

/-- Modelled from the spec: the reference fixture database, abstracted as
the outputs of its external tool invocations. -/
def fixtureDb : Db :=
  { tablesOut := fixtureTables
    schemaOut := fixtureSchemaOut
    exportOut := fixtureExportOut }

/-! ## Helper lemmas -/

theorem coerceRow_length {cs : List ColumnSchema} {fs : List String}
    {vs : List Value} (h : coerceRow cs fs = .ok vs) :
    vs.length = cs.length := by
  induction cs generalizing fs vs with
  | nil =>
    cases fs with
    | nil => simp [coerceRow] at h; simp [← h]
    | cons f fs => simp [coerceRow] at h
  | cons c cs ih =>
    cases fs with
    | nil => simp [coerceRow] at h
    | cons f fs =>
      simp only [coerceRow] at h
      cases hc : coerceField c.ty f with
      | error e => rw [hc] at h; exact absurd h (by simp)
      | ok v =>
        rw [hc] at h
        cases hr : coerceRow cs fs with
        | error e => rw [hr] at h; exact absurd h (by simp)
        | ok vs0 =>
          rw [hr] at h
          cases h
          simpa using ih hr

theorem coerceRows_length_mem {cs : List ColumnSchema}
    {rss : List (List String)} {vss : List (List Value)}
    (h : coerceRows cs rss = .ok vss) :
    ∀ vs ∈ vss, vs.length = cs.length := by
  induction rss generalizing vss with
  | nil =>
    simp only [coerceRows] at h
    injection h with h
    subst h
    simp
  | cons r rs ih =>
    simp only [coerceRows] at h
    cases hr : coerceRow cs r with
    | error e => rw [hr] at h; exact absurd h (by simp)
    | ok v =>
      rw [hr] at h
      cases hrs : coerceRows cs rs with
      | error e => rw [hrs] at h; exact absurd h (by simp)
      | ok vs0 =>
        rw [hrs] at h
        cases h
        intro vs hvs
        rcases List.mem_cons.mp hvs with h1 | h2
        · rw [h1]; exact coerceRow_length hr
        · exact ih hrs vs h2

theorem decodeRowLines_mem_length {w : Nat} {ls : List String}
    {rss : List (List String)} (h : decodeRowLines w ls = .ok rss) :
    ∀ fs ∈ rss, fs.length = w := by
  induction ls generalizing rss with
  | nil =>
    simp only [decodeRowLines] at h
    injection h with h
    subst h
    simp
  | cons l ls ih =>
    simp only [decodeRowLines] at h
    split at h
    · exact absurd h (by simp)
    next fs0 _ =>
      split at h
      next hw =>
        split at h
        · exact absurd h (by simp)
        next rest hrest =>
          injection h with h
          subst h
          intro fs hfs
          rcases List.mem_cons.mp hfs with h1 | h2
          · rw [h1]; exact hw
          · exact ih hrest fs h2
      · exact absurd h (by simp)

theorem decodeRowLines_replicate {w : Nat} {r : String} {fs : List String}
    (hp : parseRecord r = .ok fs) (hw : fs.length = w) (n : Nat) :
    decodeRowLines w (List.replicate n r) = .ok (List.replicate n fs) := by
  induction n with
  | zero => simp [decodeRowLines]
  | succ k ih =>
    simp only [List.replicate, decodeRowLines, hp, if_pos hw, ih]

theorem coerceRows_replicate {cs : List ColumnSchema} {r : List String}
    {v : List Value} (hc : coerceRow cs r = .ok v) (n : Nat) :
    coerceRows cs (List.replicate n r) = .ok (List.replicate n v) := by
  induction n with
  | zero => simp [coerceRows]
  | succ k ih =>
    simp only [List.replicate, coerceRows, hc, ih]

theorem splitFieldsAux_error {cs : List Char} {q : Bool} {cur : List Char}
    {acc : List String} {e : MdbError}
    (h : splitFieldsAux cs q cur acc = .error e) :
    ∃ m, e = .decodeError m := by
  induction cs generalizing q cur acc with
  | nil =>
    cases q with
    | false => simp [splitFieldsAux] at h
    | true =>
      simp only [splitFieldsAux] at h
      injection h with h
      exact ⟨"unterminated quoted field", h.symm⟩
  | cons c rest ih =>
    cases q with
    | false =>
      simp only [splitFieldsAux] at h
      by_cases hc : c = ','
      · rw [if_pos hc] at h; exact ih h
      · rw [if_neg hc] at h
        by_cases hq : c = '"'
        · rw [if_pos hq] at h; exact ih h
        · rw [if_neg hq] at h; exact ih h
    | true =>
      simp only [splitFieldsAux] at h
      by_cases hq : c = '"'
      · rw [if_pos hq] at h; exact ih h
      · rw [if_neg hq] at h; exact ih h

theorem parseRecord_error {l : String} {e : MdbError}
    (h : parseRecord l = .error e) : ∃ m, e = .decodeError m :=
  splitFieldsAux_error h

theorem decodeRowLines_fails {w : Nat} {ls : List String} {l : String}
    {fs : List String} (hmem : l ∈ ls) (hp : parseRecord l = .ok fs)
    (hw : fs.length ≠ w) :
    ∃ m, decodeRowLines w ls = .error (.decodeError m) := by
  induction ls with
  | nil => cases hmem
  | cons a as ih =>
    simp only [decodeRowLines]
    cases hpa : parseRecord a with
    | error e =>
      obtain ⟨m, hm⟩ := parseRecord_error hpa
      exact ⟨m, by simp [hpa, hm]⟩
    | ok fs0 =>
      by_cases hw0 : fs0.length = w
      · have hlas : l ∈ as := by
          rcases List.mem_cons.mp hmem with h1 | h2
          · exfalso
            apply hw
            rw [h1] at hp
            rw [hp] at hpa
            injection hpa with hpa
            rw [hpa]
            exact hw0
          · exact h2
        obtain ⟨m, hm⟩ := ih hlas
        exact ⟨m, by simp [hpa, hw0, hm]⟩
      · exact ⟨"row arity mismatch: " ++ a, by simp [hpa, hw0]⟩

theorem read_table_ok_of {db : Db} {t : String} {schema : List ColumnSchema}
    {rawRows : List (List String)} {rows : List (List Value)}
    (hmem : t ∈ list_table_names db)
    (hs : schemaDecode (db.schemaOut t) = .ok schema)
    (he : exportDecode (db.exportOut t) = .ok (schema.map ColumnSchema.name, rawRows))
    (hc : coerceRows schema rawRows = .ok rows) :
    read_table db t =
      .ok ⟨schema.map ColumnSchema.name, schema.map ColumnSchema.ty, rows⟩ := by
  simp [read_table, read_table_run, hmem, hs, he, hc]

/-! ## Claims -/

/-- C1: for every table name `t` not in `list_table_names db`,
`read_table` fails with a typed `TableNotFound` error whose message is
exactly `Table "<t>" not found in database`, and the only external tool
invocation performed is the table listing, so no row-export tool is run
for a missing table. -/
theorem C1_missing_table_not_found (db : Db) (t : String)
    (h : t ∉ list_table_names db) :
    read_table_run db t =
      (.error (.tableNotFound ("Table \"" ++ t ++ "\" not found in database")),
       [ToolCall.tableList]) ∧
    ∀ s, ToolCall.rowExport s ∉ (read_table_run db t).2 := by
  have heq : read_table_run db t =
      (.error (.tableNotFound ("Table \"" ++ t ++ "\" not found in database")),
       [ToolCall.tableList]) := by
    simp [read_table_run, h]
  refine ⟨heq, ?_⟩
  intro s
  rw [heq]
  simp

/-- Witness for C1 at the fixture database and the name the tests use. -/
theorem C1_missing_table_not_found_witness :
    read_table_run fixtureDb "NONEXISTENT_TABLE" =
      (.error (.tableNotFound
         ("Table \"" ++ "NONEXISTENT_TABLE" ++ "\" not found in database")),
       [ToolCall.tableList]) :=
  (C1_missing_table_not_found fixtureDb "NONEXISTENT_TABLE" (by decide)).1

/-- C2: on the reference fixture database, `list_table_names` returns
exactly the eleven table names in the order the listing tool emits them,
mixed case preserved and not alphabetically sorted. -/
theorem C2_fixture_table_names :
    list_table_names fixtureDb =
      ["CMD_LINE_TB", "CUM_VAL_TB", "DATABASE_STRUCTURE_TB", "DECUM_VAL_TB",
       "ROULETTE_TB", "TAG_GRP_TB", "TAG_NME_TB", "tblContacts",
       "tblDefaults", "tblFileList", "USysRibbons"] := by
  rfl

/-- C3: for every database and every table name in
`list_table_names db`, when the external schema and export outputs for
that table decode and agree (the well-formedness the pipeline assumes of
its external collaborator), `read_table` succeeds and the column-name
sequence of the returned table is exactly the one produced by the schema
decode. -/
theorem C3_read_table_succeeds (db : Db) (t : String)
    (schema : List ColumnSchema) (rawRows : List (List String))
    (rows : List (List Value))
    (hmem : t ∈ list_table_names db)
    (hs : schemaDecode (db.schemaOut t) = .ok schema)
    (he : exportDecode (db.exportOut t) = .ok (schema.map ColumnSchema.name, rawRows))
    (hc : coerceRows schema rawRows = .ok rows) :
    read_table db t =
      .ok ⟨schema.map ColumnSchema.name, schema.map ColumnSchema.ty, rows⟩ :=
  read_table_ok_of hmem hs he hc

/-- Witness for C3 at the fixture database, table `tblDefaults`. -/
theorem C3_read_table_succeeds_witness :
    read_table fixtureDb "tblDefaults" =
      .ok ⟨["DefaultID", "DefaultValue"], [AccessType.integer, AccessType.text],
           [[Value.vInt 1, Value.vText "default"]]⟩ :=
  C3_read_table_succeeds fixtureDb "tblDefaults"
    [⟨"DefaultID", .integer⟩, ⟨"DefaultValue", .text⟩]
    [["1", "default"]] [[.vInt 1, .vText "default"]]
    (by decide) rfl rfl rfl

/-- C4: on the reference fixture database, `read_table` of `TAG_NME_TB`
returns a table of height 933, and `read_table` of `tblContacts` returns
a table of height 0: an empty table is a valid successful result, not an
error. -/
theorem C4_fixture_heights :
    (read_table fixtureDb "TAG_NME_TB").toOption.map TypedTable.height
      = some 933 ∧
    (read_table fixtureDb "tblContacts").toOption.map TypedTable.height
      = some 0 := by
  constructor
  · have hp : parseRecord "7,\"tag\"" = .ok ["7", "tag"] := rfl
    have hd := decodeRowLines_replicate (w := 2) hp rfl 933
    have hhdr : parseRecord "TAG_ID,TAG_NME" = .ok ["TAG_ID", "TAG_NME"] := rfl
    have he : exportDecode (fixtureDb.exportOut "TAG_NME_TB") =
        .ok (["TAG_ID", "TAG_NME"], List.replicate 933 ["7", "tag"]) := by
      show exportDecode ("TAG_ID,TAG_NME" :: List.replicate 933 "7,\"tag\"") = _
      simp only [exportDecode, hhdr, List.length_cons, List.length_nil,
        Nat.zero_add, Nat.reduceAdd, hd]
    have hcr : coerceRow [⟨"TAG_ID", .integer⟩, ⟨"TAG_NME", .text⟩]
        ["7", "tag"] = .ok [.vInt 7, .vText "tag"] := rfl
    have hc := coerceRows_replicate hcr 933
    have hok := @read_table_ok_of fixtureDb "TAG_NME_TB"
      [⟨"TAG_ID", .integer⟩, ⟨"TAG_NME", .text⟩] _ _
      (by decide) rfl he hc
    rw [hok]
    simp only [Except.toOption, Option.map_some', TypedTable.height,
      List.length_replicate]
  · rfl

/-- C5: the process invoker returns the captured standard-output text
exactly when the child exits with code 0, and fails with an
`ExternalToolFailure` carrying the exit code and the captured
standard-error text exactly when the exit code is non-zero. -/
theorem C5_invoker_exit_code (p : ProcOutcome) :
    (∀ s, invoke p = .ok s ↔ (p.exitCode = 0 ∧ s = p.stdoutText)) ∧
    (p.exitCode ≠ 0 →
      invoke p = .error (.externalToolFailure p.exitCode p.stderrText)) := by
  constructor
  · intro s
    by_cases h : p.exitCode = 0 <;> simp [invoke, h, eq_comm]
  · intro h
    simp [invoke, h]

/-- Witness for C5 at exit codes 0 and 1. -/
theorem C5_invoker_exit_code_witness :
    invoke ⟨0, "out", "err"⟩ = .ok "out" ∧
    invoke ⟨1, "out", "err"⟩ = .error (.externalToolFailure 1 "err") :=
  ⟨((C5_invoker_exit_code ⟨0, "out", "err"⟩).1 "out").mpr ⟨rfl, rfl⟩,
   (C5_invoker_exit_code ⟨1, "out", "err"⟩).2 (by decide)⟩

/-- C6: every table returned by `read_table` satisfies the width
invariant (every row has exactly as many fields as there are columns),
and whenever the row decoder meets a record whose arity differs from the
width it was given, decoding fails with a `DecodeError` instead of
returning rows containing that record. -/
theorem C6_row_arity_invariant :
    (∀ (db : Db) (t : String) (tbl : TypedTable),
       read_table db t = .ok tbl →
       ∀ r ∈ tbl.rows, r.length = tbl.columns.length) ∧
    (∀ (w : Nat) (ls : List String) (l : String) (fs : List String),
       l ∈ ls → parseRecord l = .ok fs → fs.length ≠ w →
       ∃ m, decodeRowLines w ls = .error (.decodeError m)) := by
  constructor
  · intro db t tbl h r hr
    simp only [read_table, read_table_run] at h
    split at h
    · split at h
      · exact absurd h (by simp)
      next schema hs =>
        split at h
        · exact absurd h (by simp)
        next header rawRows hexp =>
          split at h
          next hh =>
            split at h
            · exact absurd h (by simp)
            next rows hc =>
              injection h with h
              subst h
              have hlen := coerceRows_length_mem hc r hr
              rw [hlen, hh, List.length_map]
          · exact absurd h (by simp)
    · exact absurd h (by simp)
  · intro w ls l fs hmem hp hw
    exact decodeRowLines_fails hmem hp hw

/-- Witness for C6 at the fixture table `tblDefaults`. -/
theorem C6_row_arity_invariant_witness :
    ([Value.vInt 1, Value.vText "default"] : List Value).length =
      (["DefaultID", "DefaultValue"] : List String).length :=
  C6_row_arity_invariant.1 fixtureDb "tblDefaults"
    ⟨["DefaultID", "DefaultValue"], [AccessType.integer, AccessType.text],
     [[Value.vInt 1, Value.vText "default"]]⟩
    rfl [Value.vInt 1, Value.vText "default"] (by simp)

/-- C7: `list_table_names` is deterministic: its result does not depend
on the ambient process state (environment, number of prior calls), so
repeated calls with the same database file and tool binaries return the
same ordered sequence. -/
theorem C7_list_table_names_deterministic (db : Db) (a1 a2 : Ambient) :
    list_table_names_in a1 db = list_table_names_in a2 db := rfl

/-- C8: helper-executable resolution keys off the normalized platform
name: for each of the four helper tools and each supported platform the
resolved path is `bin/<platform>/<tool-name>`, exactly where the build
step places binaries, and on every unsupported platform (for example
`windows`) resolution fails with `ExecutableNotFound` instead of
yielding a path. -/
theorem C8_platform_keyed_resolution :
    (∀ tool ∈ TARGET_BINARIES, ∀ sys ∈ supportedSystems,
       resolveTool sys tool = .ok (destPath sys tool) ∧
       destPath sys tool = "bin/" ++ sys ++ "/" ++ tool) ∧
    (∀ sys tool, sys ∉ supportedSystems →
       resolveTool sys tool =
         .error (.executableNotFound ("unsupported platform: " ++ sys))) := by
  constructor
  · intro tool ht sys hs
    refine ⟨?_, rfl⟩
    simp [resolveTool, hs, ht]
  · intro sys tool hs
    simp [resolveTool, hs]

/-- Witness for C8 at `linux`/`mdb-export` and the unsupported platform
`windows`. -/
theorem C8_platform_keyed_resolution_witness :
    resolveTool "linux" "mdb-export" = .ok "bin/linux/mdb-export" ∧
    resolveTool "windows" "mdb-export" =
      .error (.executableNotFound ("unsupported platform: " ++ "windows")) :=
  ⟨(C8_platform_keyed_resolution.1 "mdb-export" (by decide) "linux"
      (by decide)).1,
   C8_platform_keyed_resolution.2 "windows" "mdb-export" (by decide)⟩

/-- C9: the packaging step operates on a copy of the global environment:
the global environment after the step equals the one before it, the copy
receives `CFLAGS=-O2` only as a default (an existing value is kept), and
no other variable of the copy is changed. -/
theorem C9_env_copy_no_leak (e : Env) :
    (buildEnvStep e).1 = e ∧
    (buildEnvStep e).2 "CFLAGS" = some ((e "CFLAGS").getD "-O2") ∧
    (∀ k, k ≠ "CFLAGS" → (buildEnvStep e).2 k = e k) := by
  refine ⟨rfl, ?_, ?_⟩
  · simp [buildEnvStep, Env.setdefault]
  · intro k hk
    simp [buildEnvStep, Env.setdefault, hk]

/-- Witness for C9 at an environment holding only `PATH`. -/
theorem C9_env_copy_no_leak_witness :
    (buildEnvStep (fun k => if k = "PATH" then some "/usr/bin" else none)).1
      = (fun k => if k = "PATH" then some "/usr/bin" else none) ∧
    (buildEnvStep (fun k => if k = "PATH" then some "/usr/bin" else none)).2
      "CFLAGS" = some "-O2" ∧
    (buildEnvStep (fun k => if k = "PATH" then some "/usr/bin" else none)).2
      "PATH" = some "/usr/bin" := by
  obtain ⟨h1, h2, h3⟩ :=
    C9_env_copy_no_leak (fun k => if k = "PATH" then some "/usr/bin" else none)
  refine ⟨h1, ?_, ?_⟩
  · rw [h2]; decide
  · rw [h3 "PATH" (by decide)]; decide

/-- C10: importing the build module fails with a `RuntimeError` whose
message names the expected path whenever the package bin directory is
not present at import time, and a successful import implies the bin
directory existed, so `build_mdbtools` can only run in a state where it
already exists. -/
theorem C10_import_requires_bin_dir (fs : FileSys) :
    (fs.isDir binDirPath = false →
       importBuildModule fs =
         .error ("Expected bin dir at " ++ binDirPath)) ∧
    (importBuildModule fs = .ok () → fs.isDir binDirPath = true) := by
  constructor
  · intro h
    simp [importBuildModule, h]
  · intro h
    by_cases hd : fs.isDir binDirPath
    · exact hd
    · rw [Bool.not_eq_true] at hd
      simp [importBuildModule, hd] at h

/-- Witness for C10 at a filesystem without the bin directory and one
with it. -/
theorem C10_import_requires_bin_dir_witness :
    importBuildModule ⟨fun _ => false⟩ =
      .error ("Expected bin dir at " ++ binDirPath) ∧
    FileSys.isDir ⟨fun _ => true⟩ binDirPath = true :=
  ⟨(C10_import_requires_bin_dir ⟨fun _ => false⟩).1 rfl,
   (C10_import_requires_bin_dir ⟨fun _ => true⟩).2 rfl⟩
